import Mathlib

/-!
Shallow embedding of the embedded version-control engine for team code files
(the code-management endpoints of the FTC-Dashboard server, together with the
SQLite schema of the tables `code_files` and `code_commits`).

Modelling conventions:
* A SQL table is a `List` of row structures, in insertion (rowid) order.
* `AUTOINCREMENT` primary keys are modelled by the counters `nextFileId` and
  `nextCommitId` in the `Store`; SQLite's AUTOINCREMENT sequence is strictly
  monotone and never reuses ids, exactly like these counters.
* `created_at` timestamps are ISO-8601 strings in the source, compared
  lexicographically by `ORDER BY created_at`; for same-format ISO strings the
  lexicographic order coincides with chronological order, so timestamps are
  modelled as `Nat` and each request takes its wall-clock instant `now` as an
  explicit argument.
* `ORDER BY created_at DESC` is modelled by a stable insertion sort
  (`sortByTimeDesc`); for rows with pairwise distinct timestamps this is the
  unique descending order, and ties keep storage order.
* The `LEFT JOIN members` in the read queries only annotates each row with an
  `author_name` column and never changes the number or identity of the commit
  rows (members.id is a primary key), so the join is not modelled.
* Nullable SQL columns and optional JSON request fields are `Option`s; the
  JavaScript coercions used by the handlers (`x || 'default'` truthiness,
  destructuring defaults that fire only on `undefined`) are modelled by the
  explicit helper functions below.
* The WebSocket broadcast is fire-and-forget and never touches the tables, so
  it is not modelled.
* Foreign keys: the schema declares team_id, file_id and author_id references
  on code_commits and team_id, created_by references on code_files, and the
  app opens the database with better-sqlite3 (part_000:146) without any
  foreign_keys pragma, so SQLite enforces them by default
  (SQLITE_DEFAULT_FOREIGN_KEYS=1 in better-sqlite3 builds). The row-level
  operations below (createFile, saveDraft, ...) model the handler's effect
  when its inserts pass those checks — the scope in which the approved claims
  live, since they condition on the file existing; the wrappers saveDraftFK
  and createFileFK compose in the enforcement itself (the gate that rejects a
  draft for an unregistered file id and a re-create at an occupied path),
  parameterized by the id sets of the teams and members parent tables, which
  are otherwise outside this subsystem. A constraint failure throws, the
  handler's catch answers HTTP 500, and the aborted statement leaves the
  store unchanged.
-/

namespace FTCDashboard

/-- A row of the `code_commits` table (schema at src/unnamed/part_000:297-310).
`team_id`, `file_id` and `author_id` are nullable columns. -/
structure CodeCommit where
  id : Nat
  team_id : Option Nat
  file_id : Nat
  branch : String
  author_id : Option Nat
  message : String
  content : String
  hash : String
  created_at : Nat
deriving Repr, DecidableEq

/-- A row of the `code_files` registry table (schema at
src/unnamed/part_000:283-295), with `UNIQUE(team_id, file_path)`. -/
structure CodeFile where
  id : Nat
  team_id : Option Nat
  file_name : String
  file_path : String
  language : String
  created_by : Option Nat
  created_at : Nat
  updated_at : Nat
deriving Repr, DecidableEq

/-- The persistent store: the two tables plus the AUTOINCREMENT sequences. -/
structure Store where
  code_files : List CodeFile
  code_commits : List CodeCommit
  nextFileId : Nat
  nextCommitId : Nat
deriving Repr, DecidableEq

/-- The error responses the code-management endpoints can produce:
HTTP 400 (client error), HTTP 404 (not found), and HTTP 500 for an exception
thrown by the storage layer and caught by the handler's catch block (for this
subsystem, a SQLite constraint failure such as a foreign-key violation). -/
inductive ApiError where
  | clientError (msg : String)
  | notFound (msg : String)
  | storeError (msg : String)
deriving Repr, DecidableEq

/-- JavaScript `x || ''` on an optional string request field (`content || ''`,
`draft?.content || ''`): `undefined` gives `''`, and the falsy `''` also gives
`''`, so the result is the carried string or `""`. -/
def orEmpty : Option String → String
  | some s => s
  | none => ""

/-- JavaScript `x || 'main'` truthiness on the query-string branch parameter
(`(req.query.branch as string) || 'main'`): both a missing parameter and the
empty string fall back to `"main"`. -/
def orMain : Option String → String
  | some s => if s == "" then "main" else s
  | none => "main"

/-- A destructuring default `const { branch = 'main' } = req.body`: it fires
only when the field is absent (`undefined`); an empty string is kept. -/
def defBranch : Option String → String
  | some s => s
  | none => "main"

/-- JavaScript `author_id || null` (revert handler): a missing value stays
null, and the falsy number `0` is also coerced to null. -/
def jsOrNull : Option Nat → Option Nat
  | some n => if n == 0 then none else some n
  | none => none

/-- JavaScript `message || 'Commit to main'` (publish handler): `undefined`
and the empty string both fall back to the default message. -/
def orCommitMsg : Option String → String
  | some m => if m == "" then "Commit to main" else m
  | none => "Commit to main"

/-- Insert a commit into a list that is already sorted by `created_at`
descending, keeping it sorted; an incoming row ties with an equal timestamp by
staying in front (stability of the model sort). -/
def insertByTime (c : CodeCommit) : List CodeCommit → List CodeCommit
  | [] => [c]
  | d :: ds => if d.created_at ≤ c.created_at then c :: d :: ds else d :: insertByTime c ds

/-- Stable sort by `created_at` descending: the model of
`ORDER BY created_at DESC` over commit rows. -/
def sortByTimeDesc : List CodeCommit → List CodeCommit
  | [] => []
  | c :: cs => insertByTime c (sortByTimeDesc cs)

/-- `SELECT * FROM code_commits WHERE file_id = ? AND branch = ?`, in storage
order. -/
def commitsOn (s : Store) (fid : Nat) (b : String) : List CodeCommit :=
  s.code_commits.filter (fun c => c.file_id == fid && c.branch == b)

/-- `SELECT ... WHERE file_id = ? AND branch = ? ORDER BY created_at DESC
LIMIT 1`: the head of the descending-sorted rows. -/
def latestOn (s : Store) (fid : Nat) (b : String) : Option CodeCommit :=
  (sortByTimeDesc (commitsOn s fid b)).head?

/-- `SELECT * FROM code_files WHERE id = ?` (`.get`, at most one row since
`id` is the primary key). -/
def findFile (s : Store) (fid : Nat) : Option CodeFile :=
  s.code_files.find? (fun f => f.id == fid)

/-- `SELECT * FROM code_commits WHERE id = ?` (`.get`). -/
def findCommit (s : Store) (cid : Nat) : Option CodeCommit :=
  s.code_commits.find? (fun c => c.id == cid)

/-- GET /api/code/files/:fileId/history — commits of one `(file, branch)`
pair, newest first; the branch query parameter defaults to `'main'` by
truthiness (src/unnamed/part_000:1380-1401). -/
def getHistory (s : Store) (fid : Nat) (b : Option String) : List CodeCommit :=
  sortByTimeDesc (commitsOn s fid (orMain b))

/-- All commits of a file, every branch, newest first (the `commits` part of
the content bundle, src/unnamed/part_000:1264-1270). -/
def allCommitsDesc (s : Store) (fid : Nat) : List CodeCommit :=
  sortByTimeDesc (s.code_commits.filter (fun c => c.file_id == fid))

/-- The response of GET /api/code/files/:fileId/content. -/
structure ContentBundle where
  file : CodeFile
  drafts_content : String
  main_content : String
  commits : List CodeCommit
deriving Repr, DecidableEq

/-- GET /api/code/files/:fileId/content (src/unnamed/part_000:1252-1298):
404 when the registry has no such file, else the file row, the latest drafts
and main contents (`?.content || ''`), and the full commit list newest
first. -/
def getContentBundle (s : Store) (fid : Nat) : Except ApiError ContentBundle :=
  match findFile s fid with
  | none => .error (.notFound "File not found")
  | some f =>
      .ok { file := f
            drafts_content := orEmpty ((latestOn s fid "drafts").map (fun c => c.content))
            main_content := orEmpty ((latestOn s fid "main").map (fun c => c.content))
            commits := allCommitsDesc s fid }

/-- `UPDATE code_files SET updated_at = ? WHERE id = ?`. -/
def updateFileTimestamp (s : Store) (fid : Nat) (now : Nat) : Store :=
  { s with code_files :=
      s.code_files.map (fun f => if f.id == fid then { f with updated_at := now } else f) }

/-- The 400 message of POST /api/code/files (src/unnamed/part_000:1224). -/
def missingFieldsMsg : String :=
  "Missing required fields: team_id, file_name, file_path, author_id"

/-- The JSON body returned by POST /api/code/files. -/
structure CreateFileResult where
  id : Nat
  file_name : String
  file_path : String
  language : String
deriving Repr, DecidableEq

/-- The fresh registry row written by `INSERT OR REPLACE INTO code_files`:
the supplied metadata under a fresh AUTOINCREMENT id, with both timestamps set
to the request instant. -/
def newRegistryRow (s : Store) (tid : Nat) (fname fpath lang : String) (aid now : Nat) :
    CodeFile :=
  { id := s.nextFileId, team_id := some tid, file_name := fname,
    file_path := fpath, language := lang, created_by := some aid,
    created_at := now, updated_at := now }

/-- The initial `drafts` commit written by POST /api/code/files: message
`Created ` + file name, content `content || ''`, hash `draft_` + `Date.now()`,
referencing the fresh registry row. -/
def initialCommit (s : Store) (tid : Nat) (fname : String) (content : Option String)
    (aid now : Nat) : CodeCommit :=
  { id := s.nextCommitId, team_id := some tid, file_id := s.nextFileId,
    branch := "drafts", author_id := some aid,
    message := "Created " ++ fname, content := orEmpty content,
    hash := "draft_" ++ toString now, created_at := now }

/-- POST /api/code/files (src/unnamed/part_000:1216-1248).
`if (!team_id || !file_name || !file_path || !author_id)` rejects with 400
before any store access (JS truthiness: absent fields, the number 0 and the
empty string are all falsy). Otherwise `INSERT OR REPLACE INTO code_files`
deletes any row conflicting on `UNIQUE(team_id, file_path)` and inserts a
fresh row with a fresh AUTOINCREMENT id, then one initial commit on branch
`drafts` is inserted with content `content || ''` and hash
`draft_` + `Date.now()`. `language` defaults to `'java'` by destructuring.
This definition is the row-level effect when both inserts pass the store's
foreign-key checks (a fresh path with valid team and author); createFileFK
below composes in the enforcement itself, which rejects the statement when a
deleted registry row leaves orphaned commit children. -/
def createFile (s : Store) (team_id : Option Nat) (file_name file_path : Option String)
    (language : Option String) (content : Option String) (author_id : Option Nat)
    (now : Nat) : Except ApiError CreateFileResult × Store :=
  match team_id, file_name, file_path, author_id with
  | some tid, some fname, some fpath, some aid =>
      if tid == 0 || fname == "" || fpath == "" || aid == 0 then
        (.error (.clientError missingFieldsMsg), s)
      else
        let lang := language.getD "java"
        (.ok { id := s.nextFileId, file_name := fname, file_path := fpath, language := lang },
         { code_files :=
             s.code_files.filter (fun f => !(f.team_id == some tid && f.file_path == fpath))
               ++ [newRegistryRow s tid fname fpath lang aid now],
           code_commits := s.code_commits ++ [initialCommit s tid fname content aid now],
           nextFileId := s.nextFileId + 1,
           nextCommitId := s.nextCommitId + 1 })
  | _, _, _, _ => (.error (.clientError missingFieldsMsg), s)

/-- The store right after one `INSERT INTO code_commits`: the new row is
appended and the AUTOINCREMENT sequence advances. -/
def midStore (s : Store) (c : CodeCommit) : Store :=
  { s with code_commits := s.code_commits ++ [c], nextCommitId := s.nextCommitId + 1 }

/-- The commit row inserted by POST /api/code/files/:fileId/draft: branch
`drafts`, message `Auto-save draft`, hash `draft_` + `Date.now()`, `team_id`
from the scalar subquery over the registry (NULL when no such row). -/
def draftCommit (s : Store) (fileId : Nat) (content : String) (author_id : Option Nat)
    (now : Nat) : CodeCommit :=
  { id := s.nextCommitId, team_id := (findFile s fileId).bind (fun f => f.team_id),
    file_id := fileId, branch := "drafts", author_id := author_id,
    message := "Auto-save draft", content := content,
    hash := "draft_" ++ toString now, created_at := now }

/-- POST /api/code/files/:fileId/draft (src/unnamed/part_000:1301-1328).
No existence check on the file: the commit row is always inserted, with
`team_id` taken from the scalar subquery
`(SELECT team_id FROM code_files WHERE id = ?)` (NULL when the registry has no
such row), branch `'drafts'`, message `'Auto-save draft'` and hash
`draft_` + `Date.now()`; then `updated_at` of the (possibly absent) registry
row is bumped. Returns the new commit's rowid. This definition is the
row-level effect when the insert passes the store's foreign-key checks (a
registered file id and valid author); saveDraftFK below composes in the
enforcement itself, which rejects the insert for an unregistered file id. -/
def saveDraft (s : Store) (fileId : Nat) (content : String) (author_id : Option Nat)
    (now : Nat) : Except ApiError Nat × Store :=
  (.ok s.nextCommitId,
   updateFileTimestamp (midStore s (draftCommit s fileId content author_id now)) fileId now)

/-- The commit row inserted by publish for registry row `f`: branch `main`,
content copied from the latest drafts commit (`draft?.content || ''`), message
`message || 'Commit to main'`, hash `Date.now()` + `_` + random token. -/
def publishCommit (s : Store) (f : CodeFile) (fileId : Nat) (message : Option String)
    (author_id : Option Nat) (now : Nat) (rand : String) : CodeCommit :=
  { id := s.nextCommitId, team_id := f.team_id, file_id := fileId,
    branch := "main", author_id := author_id, message := orCommitMsg message,
    content := orEmpty ((latestOn s fileId "drafts").map (fun c => c.content)),
    hash := toString now ++ "_" ++ rand, created_at := now }

/-- POST /api/code/files/:fileId/commit, i.e. publish
(src/unnamed/part_000:1331-1377). 404 when the registry has no such file;
otherwise the latest drafts content (`draft?.content || ''`) is copied into a
new commit on branch `'main'` with message `message || 'Commit to main'` and
hash `Date.now()` + `_` + a random token, `updated_at` is bumped, and the new
hash is returned. -/
def publish (s : Store) (fileId : Nat) (message : Option String) (author_id : Option Nat)
    (now : Nat) (rand : String) : Except ApiError String × Store :=
  match findFile s fileId with
  | none => (.error (.notFound "File not found"), s)
  | some f =>
      (.ok (toString now ++ "_" ++ rand),
       updateFileTimestamp
         (midStore s (publishCommit s f fileId message author_id now rand)) fileId now)

/-- The commit row inserted by revert of source commit `cm` owned by registry
row `f`: the requested branch (destructuring default `main`), content copied
verbatim from `cm`, message `Revert to commit ` + `cm`'s hash, author
`author_id || null`, hash `Date.now()` + `_` + random token. -/
def revertCommit (s : Store) (cm : CodeCommit) (f : CodeFile) (branch : Option String)
    (author_id : Option Nat) (now : Nat) (rand : String) : CodeCommit :=
  { id := s.nextCommitId, team_id := f.team_id, file_id := f.id,
    branch := defBranch branch, author_id := jsOrNull author_id,
    message := "Revert to commit " ++ cm.hash, content := cm.content,
    hash := toString now ++ "_" ++ rand, created_at := now }

/-- POST /api/code/commits/:commitId/revert (src/unnamed/part_000:1426-1463).
404 when the commit is unknown, 404 when its owning file is unknown;
otherwise a new commit is appended on the requested branch (destructuring
default `'main'`) whose content is copied verbatim from the source commit,
with message `Revert to commit ` + its hash, author `author_id || null`, and a
fresh `Date.now()` + `_` + random hash; `updated_at` is bumped and the new
hash returned. -/
def revert (s : Store) (commitId : Nat) (branch : Option String) (author_id : Option Nat)
    (now : Nat) (rand : String) : Except ApiError String × Store :=
  match findCommit s commitId with
  | none => (.error (.notFound "Commit not found"), s)
  | some cm =>
      match findFile s cm.file_id with
      | none => (.error (.notFound "File not found for commit"), s)
      | some f =>
          (.ok (toString now ++ "_" ++ rand),
           updateFileTimestamp
             (midStore s (revertCommit s cm f branch author_id now rand)) f.id now)

/-- POST /api/code/files/:fileId/download (src/unnamed/part_000:1466-1496).
404 when the registry has no such file; 404 when the `(file, branch)` pair has
no commit at all (no silent empty content); otherwise the latest commit's raw
content together with the registry row's `file_name` as the suggested
attachment filename. -/
def download (s : Store) (fid : Nat) (b : Option String) :
    Except ApiError (String × String) :=
  match findFile s fid with
  | none => .error (.notFound "File not found")
  | some f =>
      match latestOn s fid (defBranch b) with
      | none => .error (.notFound "No content found for this branch")
      | some c => .ok (c.content, f.file_name)

/-! ### SQLite foreign-key enforcement (schema src/unnamed/part_000:283-310)

better-sqlite3 compiles SQLite with foreign keys on by default and the app
never issues a foreign_keys pragma, so every insert into code_commits checks
its non-NULL team_id, file_id, author_id references immediately, and an
INSERT OR REPLACE into code_files re-checks the commit children of any row it
deleted at the end of the statement. `teams` and `members` carry the row ids
of the two parent tables that live outside this subsystem. -/

/-- Immediate admissibility of one new code_commits row: each non-NULL
foreign-key value needs a parent row; NULL values are exempt. The handlers
always bind file_id non-NULL, so it is checked against the registry
unconditionally. -/
def commitRowFkOk (teams members : List Nat) (s : Store) (c : CodeCommit) : Bool :=
  (match c.team_id with | none => true | some t => teams.contains t) &&
  s.code_files.any (fun f => f.id == c.file_id) &&
  (match c.author_id with | none => true | some a => members.contains a)

/-- Immediate admissibility of one new code_files row: its team_id and
created_by references must exist when non-NULL. -/
def fileRowFkOk (teams members : List Nat) (f : CodeFile) : Bool :=
  (match f.team_id with | none => true | some t => teams.contains t) &&
  (match f.created_by with | none => true | some a => members.contains a)

/-- End-of-statement re-check after REPLACE conflict resolution: every commit
row that referenced a deleted registry row must find a parent in the
post-statement registry, else the statement aborts. -/
def replaceDeletedOk (deleted newFiles : List CodeFile)
    (commits : List CodeCommit) : Bool :=
  commits.all (fun c =>
    !(deleted.any (fun d => d.id == c.file_id))
      || newFiles.any (fun f => f.id == c.file_id))

/-- POST /api/code/files/:fileId/draft with the store's foreign-key
enforcement composed in: the commit insert runs only if the new row passes
the immediate checks; otherwise better-sqlite3 throws FOREIGN KEY constraint
failed, the handler's catch answers HTTP 500, and neither table changes. -/
def saveDraftFK (teams members : List Nat) (s : Store) (fileId : Nat)
    (content : String) (author_id : Option Nat) (now : Nat) :
    Except ApiError Nat × Store :=
  if commitRowFkOk teams members s (draftCommit s fileId content author_id now) then
    saveDraft s fileId content author_id now
  else
    (.error (.storeError "FOREIGN KEY constraint failed"), s)

/-- The store after a successful INSERT OR REPLACE INTO code_files, before
the initial-commit insert: the conflicting rows are gone, the replacement row
sits under a fresh AUTOINCREMENT id, and the commits are untouched. -/
def replacedStore (s : Store) (tid : Nat) (fname fpath lang : String)
    (aid now : Nat) : Store :=
  { code_files :=
      s.code_files.filter (fun f => !(f.team_id == some tid && f.file_path == fpath))
        ++ [newRegistryRow s tid fname fpath lang aid now],
    code_commits := s.code_commits,
    nextFileId := s.nextFileId + 1,
    nextCommitId := s.nextCommitId }

/-- The body of POST /api/code/files under foreign-key enforcement, after the
required-field guard has seen all four fields present. The REPLACE statement
succeeds only if the fresh registry row's own references exist and no deleted
row leaves an orphaned commit child (the end-of-statement re-check);
otherwise it aborts with FOREIGN KEY constraint failed and the store is
unchanged. When it succeeds, the follow-up initial-commit insert is itself
FK-checked against the replaced registry; the two statements are not wrapped
in a transaction, so a commit-insert failure leaves the registry replacement
behind. -/
def createFileFKbody (teams members : List Nat) (s : Store) (tid : Nat)
    (fname fpath : String) (language content : Option String) (aid now : Nat) :
    Except ApiError CreateFileResult × Store :=
  if tid == 0 || fname == "" || fpath == "" || aid == 0 then
    (.error (.clientError missingFieldsMsg), s)
  else if fileRowFkOk teams members
        (newRegistryRow s tid fname fpath (language.getD "java") aid now)
      && replaceDeletedOk
          (s.code_files.filter (fun f => f.team_id == some tid && f.file_path == fpath))
          (s.code_files.filter (fun f => !(f.team_id == some tid && f.file_path == fpath))
            ++ [newRegistryRow s tid fname fpath (language.getD "java") aid now])
          s.code_commits then
    if commitRowFkOk teams members
        (replacedStore s tid fname fpath (language.getD "java") aid now)
        (initialCommit s tid fname content aid now) then
      (.ok { id := s.nextFileId, file_name := fname, file_path := fpath,
             language := language.getD "java" },
       { replacedStore s tid fname fpath (language.getD "java") aid now with
           code_commits := s.code_commits ++ [initialCommit s tid fname content aid now],
           nextCommitId := s.nextCommitId + 1 })
    else
      (.error (.storeError "FOREIGN KEY constraint failed"),
       replacedStore s tid fname fpath (language.getD "java") aid now)
  else
    (.error (.storeError "FOREIGN KEY constraint failed"), s)

/-- POST /api/code/files with the store's foreign-key enforcement composed
in: the required-field guard as in createFile, then createFileFKbody. -/
def createFileFK (teams members : List Nat) (s : Store) (team_id : Option Nat)
    (file_name file_path : Option String) (language content : Option String)
    (author_id : Option Nat) (now : Nat) : Except ApiError CreateFileResult × Store :=
  match team_id, file_name, file_path, author_id with
  | some tid, some fname, some fpath, some aid =>
      createFileFKbody teams members s tid fname fpath language content aid now
  | _, _, _, _ => (.error (.clientError missingFieldsMsg), s)

/-! ### Helper lemmas about the model sorts and lookups -/

theorem length_insertByTime (c : CodeCommit) (l : List CodeCommit) :
    (insertByTime c l).length = l.length + 1 := by
  induction l with
  | nil => rfl
  | cons d ds ih =>
      simp only [insertByTime]
      split
      · simp
      · simp [ih]

theorem length_sortByTimeDesc (l : List CodeCommit) :
    (sortByTimeDesc l).length = l.length := by
  induction l with
  | nil => rfl
  | cons c cs ih => simp [sortByTimeDesc, length_insertByTime, ih]

/-- Appending a commit strictly newer than everything already present and
sorting puts it at the head: the model of "the freshest insert becomes the
ORDER BY created_at DESC head". -/
theorem sortByTimeDesc_append_newest (l : List CodeCommit) (c : CodeCommit)
    (h : ∀ d ∈ l, d.created_at < c.created_at) :
    sortByTimeDesc (l ++ [c]) = c :: sortByTimeDesc l := by
  induction l with
  | nil => rfl
  | cons x xs ih =>
      have hx : x.created_at < c.created_at := h x (by simp)
      have ih' := ih (fun d hd => h d (by simp [hd]))
      show insertByTime x (sortByTimeDesc (xs ++ [c])) = c :: insertByTime x (sortByTimeDesc xs)
      rw [ih']
      show (if c.created_at ≤ x.created_at then x :: c :: sortByTimeDesc xs
            else c :: insertByTime x (sortByTimeDesc xs)) = _
      rw [if_neg (by omega)]

@[simp]
theorem code_commits_updateFileTimestamp (s : Store) (fid now : Nat) :
    (updateFileTimestamp s fid now).code_commits = s.code_commits := rfl

@[simp]
theorem nextCommitId_updateFileTimestamp (s : Store) (fid now : Nat) :
    (updateFileTimestamp s fid now).nextCommitId = s.nextCommitId := rfl

theorem commitsOn_updateFileTimestamp (s : Store) (fid now fid' : Nat) (b : String) :
    commitsOn (updateFileTimestamp s fid now) fid' b = commitsOn s fid' b := rfl

theorem latestOn_updateFileTimestamp (s : Store) (fid now fid' : Nat) (b : String) :
    latestOn (updateFileTimestamp s fid now) fid' b = latestOn s fid' b := rfl

/-- `find?` commutes with mapping a function that does not change the value
of the search predicate. -/
theorem find?_map_pres {α : Type} (g : α → α) (p : α → Bool)
    (hg : ∀ x, p (g x) = p x) (l : List α) :
    (l.map g).find? p = (l.find? p).map g := by
  induction l with
  | nil => rfl
  | cons x xs ih =>
      cases hp : p x
      · rw [List.map_cons, List.find?_cons_of_neg _ (by simp [hg, hp]),
          List.find?_cons_of_neg _ (by simp [hp]), ih]
      · rw [List.map_cons, List.find?_cons_of_pos _ (by simp [hg, hp]),
          List.find?_cons_of_pos _ (by simp [hp])]
        rfl

/-- The `UPDATE ... WHERE id = ?` preserves lookups up to bumping the
timestamp of the targeted row. -/
theorem findFile_updateFileTimestamp (s : Store) (fid now fid' : Nat) :
    findFile (updateFileTimestamp s fid now) fid' =
      (findFile s fid').map (fun f => if f.id == fid then { f with updated_at := now } else f) := by
  show (s.code_files.map _).find? _ = (s.code_files.find? _).map _
  apply find?_map_pres
  intro x
  show ((if x.id == fid then { x with updated_at := now } else x).id == fid') = (x.id == fid')
  split <;> rfl

/-- An `UPDATE ... WHERE id = ?` that matches no row leaves the registry
unchanged. -/
theorem updateFileTimestamp_of_absent (s : Store) (fid now : Nat)
    (h : findFile s fid = none) : updateFileTimestamp s fid now = s := by
  have h' : ∀ f ∈ s.code_files, ¬ (f.id == fid) = true := by
    simpa [findFile, List.find?_eq_none] using h
  unfold updateFileTimestamp
  have : s.code_files.map
      (fun f => if f.id == fid then { f with updated_at := now } else f) = s.code_files := by
    calc s.code_files.map (fun f => if f.id == fid then { f with updated_at := now } else f)
        = s.code_files.map id := by
          apply List.map_congr_left
          intro f hf
          simp [h' f hf]
      _ = s.code_files := List.map_id _
  rw [this]

/-- `find?` skips a prefix on which the predicate fails everywhere. -/
theorem find?_append_of_notfound {α : Type} (p : α → Bool) (l₁ l₂ : List α)
    (h : ∀ x ∈ l₁, ¬ p x = true) : (l₁ ++ l₂).find? p = l₂.find? p := by
  induction l₁ with
  | nil => rfl
  | cons x xs ih =>
      rw [List.cons_append, List.find?_cons_of_neg _ (h x (by simp))]
      exact ih (fun y hy => h y (by simp [hy]))

/-! ### Bridge lemmas about the operations -/

theorem saveDraft_snd (s : Store) (fid : Nat) (X : String) (aid : Option Nat)
    (now : Nat) :
    (saveDraft s fid X aid now).2
      = updateFileTimestamp (midStore s (draftCommit s fid X aid now)) fid now := rfl

theorem saveDraft_snd_code_commits (s : Store) (fid : Nat) (X : String) (aid : Option Nat)
    (now : Nat) :
    ((saveDraft s fid X aid now).2).code_commits
      = s.code_commits ++ [draftCommit s fid X aid now] := rfl

theorem saveDraft_snd_nextCommitId (s : Store) (fid : Nat) (X : String) (aid : Option Nat)
    (now : Nat) :
    ((saveDraft s fid X aid now).2).nextCommitId = s.nextCommitId + 1 := rfl

theorem publish_eq_of_none (s : Store) (fid : Nat) (m : Option String) (a : Option Nat)
    (n : Nat) (r : String) (hf : findFile s fid = none) :
    publish s fid m a n r = (.error (.notFound "File not found"), s) := by
  unfold publish
  rw [hf]

theorem midStore_code_commits (s : Store) (c : CodeCommit) :
    (midStore s c).code_commits = s.code_commits ++ [c] := rfl

theorem findFile_midStore (s : Store) (c : CodeCommit) (fid : Nat) :
    findFile (midStore s c) fid = findFile s fid := rfl

theorem publish_eq_of_some (s : Store) (fid : Nat) (m : Option String) (a : Option Nat)
    (n : Nat) (r : String) (f : CodeFile) (hf : findFile s fid = some f) :
    publish s fid m a n r
      = (.ok (toString n ++ "_" ++ r),
         updateFileTimestamp (midStore s (publishCommit s f fid m a n r)) fid n) := by
  unfold publish
  rw [hf]

theorem revert_eq_of_no_commit (s : Store) (cid : Nat) (b : Option String) (a : Option Nat)
    (n : Nat) (r : String) (hc : findCommit s cid = none) :
    revert s cid b a n r = (.error (.notFound "Commit not found"), s) := by
  unfold revert
  rw [hc]

theorem revert_eq_of_no_file (s : Store) (cid : Nat) (b : Option String) (a : Option Nat)
    (n : Nat) (r : String) (cm : CodeCommit) (hc : findCommit s cid = some cm)
    (hf : findFile s cm.file_id = none) :
    revert s cid b a n r = (.error (.notFound "File not found for commit"), s) := by
  unfold revert
  rw [hc]
  show (match findFile s cm.file_id with
        | none => (Except.error (ApiError.notFound "File not found for commit"), s)
        | some f =>
            (Except.ok (toString n ++ "_" ++ r),
             updateFileTimestamp (midStore s (revertCommit s cm f b a n r)) f.id n)) = _
  rw [hf]

theorem revert_eq_of_some (s : Store) (cid : Nat) (b : Option String) (a : Option Nat)
    (n : Nat) (r : String) (cm : CodeCommit) (f : CodeFile)
    (hc : findCommit s cid = some cm) (hf : findFile s cm.file_id = some f) :
    revert s cid b a n r
      = (.ok (toString n ++ "_" ++ r),
         updateFileTimestamp (midStore s (revertCommit s cm f b a n r)) f.id n) := by
  unfold revert
  rw [hc]
  show (match findFile s cm.file_id with
        | none => (Except.error (ApiError.notFound "File not found for commit"), s)
        | some f =>
            (Except.ok (toString n ++ "_" ++ r),
             updateFileTimestamp (midStore s (revertCommit s cm f b a n r)) f.id n)) = _
  rw [hf]

/-- Commit lookups are unaffected by a bumped registry timestamp. -/
theorem commitsOn_mid_update (s : Store) (c : CodeCommit) (fid now fid' : Nat)
    (b : String) :
    commitsOn (updateFileTimestamp (midStore s c) fid now) fid' b
      = commitsOn s fid' b
        ++ List.filter (fun d => d.file_id == fid' && d.branch == b) [c] := by
  show List.filter _ (s.code_commits ++ [c]) = _
  rw [List.filter_append]
  rfl

/-- File lookup after one full mutating step: the timestamp of the targeted
row is bumped, nothing else changes. -/
theorem findFile_mid_update (s : Store) (c : CodeCommit) (fid now fid' : Nat) :
    findFile (updateFileTimestamp (midStore s c) fid now) fid'
      = (findFile s fid').map
          (fun g => if g.id == fid then { g with updated_at := now } else g) :=
  findFile_updateFileTimestamp (midStore s c) fid now fid'

/-- Whether a response is a success rather than a 4xx error. -/
def isOk {α : Type} : Except ApiError α → Bool
  | .ok _ => true
  | .error _ => false

/-- A mutating Commit Engine request, as dispatched by the HTTP layer. -/
inductive EngineOp where
  | saveDraftOp (fileId : Nat) (content : String) (author_id : Option Nat) (now : Nat)
  | publishOp (fileId : Nat) (message : Option String) (author_id : Option Nat)
      (now : Nat) (rand : String)
  | revertOp (commitId : Nat) (branch : Option String) (author_id : Option Nat)
      (now : Nat) (rand : String)

/-- Run one mutating request against the store, forgetting the response
payload. -/
def runOp (s : Store) : EngineOp → Except ApiError Unit × Store
  | .saveDraftOp fid c a n =>
      ((saveDraft s fid c a n).1.map (fun _ => ()), (saveDraft s fid c a n).2)
  | .publishOp fid m a n r =>
      ((publish s fid m a n r).1.map (fun _ => ()), (publish s fid m a n r).2)
  | .revertOp cid b a n r =>
      ((revert s cid b a n r).1.map (fun _ => ()), (revert s cid b a n r).2)

theorem getContentBundle_eq_of_some (s : Store) (fid : Nat) (f : CodeFile)
    (hf : findFile s fid = some f) :
    getContentBundle s fid = .ok
      { file := f
        drafts_content := orEmpty ((latestOn s fid "drafts").map (fun c => c.content))
        main_content := orEmpty ((latestOn s fid "main").map (fun c => c.content))
        commits := allCommitsDesc s fid } := by
  unfold getContentBundle
  rw [hf]

theorem drafts_beq_main : (("drafts" : String) == "main") = false := by decide

/-- Claim C1: every successful saveDraft, publish or revert leaves every
pre-existing commit row in place and unmodified and appends exactly one new
commit row, so the commit count of the affected file never decreases. -/
theorem append_only_commits (s : Store) (op : EngineOp)
    (hok : isOk (runOp s op).1 = true) :
    ∃ c, ((runOp s op).2).code_commits = s.code_commits ++ [c] := by
  cases op with
  | saveDraftOp fid content a n => exact ⟨draftCommit s fid content a n, rfl⟩
  | publishOp fid m a n r =>
      cases hf : findFile s fid with
      | none =>
          rw [show (runOp s (.publishOp fid m a n r)).1
                = ((publish s fid m a n r).1.map (fun _ => ())) from rfl,
              publish_eq_of_none s fid m a n r hf] at hok
          simp [isOk, Except.map] at hok
      | some f =>
          refine ⟨publishCommit s f fid m a n r, ?_⟩
          show ((publish s fid m a n r).2).code_commits = _
          rw [publish_eq_of_some s fid m a n r f hf]
          rfl
  | revertOp cid b a n r =>
      cases hc : findCommit s cid with
      | none =>
          rw [show (runOp s (.revertOp cid b a n r)).1
                = ((revert s cid b a n r).1.map (fun _ => ())) from rfl,
              revert_eq_of_no_commit s cid b a n r hc] at hok
          simp [isOk, Except.map] at hok
      | some cm =>
          cases hf : findFile s cm.file_id with
          | none =>
              rw [show (runOp s (.revertOp cid b a n r)).1
                    = ((revert s cid b a n r).1.map (fun _ => ())) from rfl,
                  revert_eq_of_no_file s cid b a n r cm hc hf] at hok
              simp [isOk, Except.map] at hok
          | some f =>
              refine ⟨revertCommit s cm f b a n r, ?_⟩
              show ((revert s cid b a n r).2).code_commits = _
              rw [revert_eq_of_some s cid b a n r cm f hc hf]
              rfl

/-- Claim C9: saveDraft has no no-op short-circuit — two saveDrafts with the
same content append two distinct drafts commit rows and grow the drafts
history by exactly 2. -/
theorem saveDraft_not_idempotent (s : Store) (fid : Nat) (X : String)
    (aid : Option Nat) (t1 t2 : Nat) :
    ∃ c1 c2,
      ((saveDraft (saveDraft s fid X aid t1).2 fid X aid t2).2).code_commits
          = s.code_commits ++ [c1, c2] ∧
      c1 ≠ c2 ∧ c1.branch = "drafts" ∧ c2.branch = "drafts" ∧
      c1.content = X ∧ c2.content = X ∧
      (getHistory (saveDraft (saveDraft s fid X aid t1).2 fid X aid t2).2 fid
          (some "drafts")).length
        = (getHistory s fid (some "drafts")).length + 2 := by
  refine ⟨draftCommit s fid X aid t1,
          draftCommit (saveDraft s fid X aid t1).2 fid X aid t2,
          ?_, ?_, rfl, rfl, rfl, rfl, ?_⟩
  · rw [saveDraft_snd_code_commits, saveDraft_snd_code_commits, List.append_assoc]
    rfl
  · intro h
    have hid := congrArg CodeCommit.id h
    rw [show (draftCommit s fid X aid t1).id = s.nextCommitId from rfl,
        show (draftCommit (saveDraft s fid X aid t1).2 fid X aid t2).id
           = ((saveDraft s fid X aid t1).2).nextCommitId from rfl,
        saveDraft_snd_nextCommitId] at hid
    omega
  · unfold getHistory
    rw [length_sortByTimeDesc, length_sortByTimeDesc]
    unfold commitsOn
    rw [saveDraft_snd_code_commits, saveDraft_snd_code_commits, List.append_assoc,
        List.filter_append]
    simp [draftCommit, orMain]

/-- Claim C10, corrected: saveDraft performs no registry existence check of
its own and never answers 404 — but with foreign keys enforced (the
better-sqlite3 default) the commit insert for a file id absent from the
registry fails its file_id reference, the statement throws FOREIGN KEY
constraint failed, the handler answers HTTP 500, and neither table changes. -/
theorem saveDraft_missing_file_fk (teams members : List Nat) (s : Store) (fid : Nat)
    (X : String) (aid : Option Nat) (now : Nat)
    (habsent : findFile s fid = none) :
    saveDraftFK teams members s fid X aid now
      = (.error (.storeError "FOREIGN KEY constraint failed"), s) := by
  have hnone : ∀ g ∈ s.code_files, ¬(g.id == fid) = true := by
    simpa [findFile, List.find?_eq_none] using habsent
  have hany : s.code_files.any (fun f => f.id == (draftCommit s fid X aid now).file_id)
      = false := by
    rw [List.any_eq_false]
    intro f hf
    exact hnone f hf
  have hfk : commitRowFkOk teams members s (draftCommit s fid X aid now) = false := by
    unfold commitRowFkOk
    rw [hany]
    simp
  unfold saveDraftFK
  rw [hfk]
  rfl

/-- Claim C7: a createFile request missing any of team id, file name, path or
author id is rejected with the client error before any store access, leaving
both tables (and the id sequences) completely unchanged. -/
theorem createFile_missing_field (s : Store) (team_id : Option Nat)
    (fn fp lang content : Option String) (aid : Option Nat) (now : Nat)
    (hmiss : team_id = none ∨ fn = none ∨ fp = none ∨ aid = none) :
    createFile s team_id fn fp lang content aid now
      = (.error (.clientError missingFieldsMsg), s) := by
  rcases team_id with _ | tid <;> rcases fn with _ | n <;> rcases fp with _ | p <;>
      rcases aid with _ | a <;> simp_all [createFile]

/-- Claim C4: publish with no prior draft is legal — it succeeds, appends a
main commit whose content is the empty string, and returns the new commit's
hash. -/
theorem publish_no_draft (s : Store) (f : CodeFile) (fid : Nat) (msg : Option String)
    (aid : Option Nat) (now : Nat) (rand : String)
    (hfile : findFile s fid = some f)
    (hnodraft : commitsOn s fid "drafts" = []) :
    (publish s fid msg aid now rand).1 = .ok (toString now ++ "_" ++ rand) ∧
    ∃ c, ((publish s fid msg aid now rand).2).code_commits = s.code_commits ++ [c] ∧
      c.branch = "main" ∧ c.content = "" ∧ c.hash = toString now ++ "_" ++ rand := by
  have hlat : latestOn s fid "drafts" = none := by
    unfold latestOn
    rw [hnodraft]
    rfl
  rw [publish_eq_of_some s fid msg aid now rand f hfile]
  refine ⟨rfl, publishCommit s f fid msg aid now rand, rfl, rfl, ?_, rfl⟩
  show orEmpty ((latestOn s fid "drafts").map (fun c => c.content)) = ""
  rw [hlat]
  rfl

/-- Claim C5: download fails with a not-found error when the requested branch
(defaulting to main) has no commit, and otherwise returns the latest commit's
raw content with the registry row's file name as the suggested filename. -/
theorem download_branch_spec (s : Store) (f : CodeFile) (fid : Nat) (b : Option String)
    (hfile : findFile s fid = some f) :
    (commitsOn s fid (defBranch b) = [] →
      download s fid b = .error (.notFound "No content found for this branch")) ∧
    ∀ c, latestOn s fid (defBranch b) = some c →
      download s fid b = .ok (c.content, f.file_name) := by
  constructor
  · intro h
    have hlat : latestOn s fid (defBranch b) = none := by
      unfold latestOn
      rw [h]
      rfl
    unfold download
    rw [hfile]
    show (match latestOn s fid (defBranch b) with
          | none => Except.error (ApiError.notFound "No content found for this branch")
          | some c => Except.ok (c.content, f.file_name)) = _
    rw [hlat]
  · intro c hc
    unfold download
    rw [hfile]
    show (match latestOn s fid (defBranch b) with
          | none => Except.error (ApiError.notFound "No content found for this branch")
          | some c => Except.ok (c.content, f.file_name)) = _
    rw [hc]

/-- Claim C3: round trip — for a registered file, saveDraft with content X
followed by publish yields a state whose content bundle has main content X. -/
theorem round_trip (s : Store) (f : CodeFile) (fid : Nat) (X : String)
    (aid1 aid2 : Option Nat) (msg : Option String) (t1 t2 : Nat) (rand : String)
    (hfile : findFile s fid = some f)
    (hfresh : ∀ c ∈ s.code_commits, c.created_at < t1)
    (ht : t1 < t2) :
    ∃ bundle,
      getContentBundle (publish (saveDraft s fid X aid1 t1).2 fid msg aid2 t2 rand).2 fid
        = .ok bundle ∧ bundle.main_content = X := by
  have hf1 : findFile (saveDraft s fid X aid1 t1).2 fid
      = some (if f.id == fid then { f with updated_at := t1 } else f) := by
    have h := findFile_mid_update s (draftCommit s fid X aid1 t1) fid t1 fid
    rw [hfile] at h
    exact h
  have hdraft : latestOn (saveDraft s fid X aid1 t1).2 fid "drafts"
      = some (draftCommit s fid X aid1 t1) := by
    unfold latestOn
    rw [saveDraft_snd, commitsOn_mid_update,
        show List.filter (fun d => d.file_id == fid && d.branch == "drafts")
          [draftCommit s fid X aid1 t1] = [draftCommit s fid X aid1 t1] by
          simp [draftCommit],
        sortByTimeDesc_append_newest]
    · rfl
    · intro d hd
      exact hfresh d (List.mem_of_mem_filter hd)
  rw [publish_eq_of_some _ fid msg aid2 t2 rand _ hf1]
  have hmain : commitsOn
      (updateFileTimestamp
        (midStore (saveDraft s fid X aid1 t1).2
          (publishCommit (saveDraft s fid X aid1 t1).2
            (if f.id == fid then { f with updated_at := t1 } else f) fid msg aid2 t2 rand))
        fid t2) fid "main"
      = commitsOn s fid "main"
        ++ [publishCommit (saveDraft s fid X aid1 t1).2
              (if f.id == fid then { f with updated_at := t1 } else f) fid msg aid2 t2 rand] := by
    rw [commitsOn_mid_update]
    rw [show commitsOn (saveDraft s fid X aid1 t1).2 fid "main" = commitsOn s fid "main" by
      rw [saveDraft_snd, commitsOn_mid_update]
      rw [show List.filter (fun d => d.file_id == fid && d.branch == "main")
            [draftCommit s fid X aid1 t1] = [] by simp [draftCommit, drafts_beq_main]]
      rw [List.append_nil]]
    congr 1
    simp [publishCommit]
  have hf2 : findFile
      (updateFileTimestamp
        (midStore (saveDraft s fid X aid1 t1).2
          (publishCommit (saveDraft s fid X aid1 t1).2
            (if f.id == fid then { f with updated_at := t1 } else f) fid msg aid2 t2 rand))
        fid t2) fid
      = some (if (if f.id == fid then { f with updated_at := t1 } else f).id == fid then
          { (if f.id == fid then { f with updated_at := t1 } else f) with updated_at := t2 }
        else (if f.id == fid then { f with updated_at := t1 } else f)) := by
    have h := findFile_mid_update (saveDraft s fid X aid1 t1).2
      (publishCommit (saveDraft s fid X aid1 t1).2
        (if f.id == fid then { f with updated_at := t1 } else f) fid msg aid2 t2 rand)
      fid t2 fid
    rw [hf1] at h
    exact h
  rw [getContentBundle_eq_of_some _ fid _ hf2]
  refine ⟨_, rfl, ?_⟩
  show orEmpty ((latestOn _ fid "main").map (fun c => c.content)) = X
  have hlat : latestOn
      (updateFileTimestamp
        (midStore (saveDraft s fid X aid1 t1).2
          (publishCommit (saveDraft s fid X aid1 t1).2
            (if f.id == fid then { f with updated_at := t1 } else f) fid msg aid2 t2 rand))
        fid t2) fid "main"
      = some (publishCommit (saveDraft s fid X aid1 t1).2
          (if f.id == fid then { f with updated_at := t1 } else f) fid msg aid2 t2 rand) := by
    show (sortByTimeDesc _).head? = _
    rw [hmain, sortByTimeDesc_append_newest]
    · rfl
    · intro d hd
      have hds : d ∈ s.code_commits := List.mem_of_mem_filter hd
      have := hfresh d hds
      show d.created_at < t2
      omega
  rw [hlat]
  show orEmpty (some (orEmpty ((latestOn (saveDraft s fid X aid1 t1).2 fid
      "drafts").map (fun c => c.content)))) = X
  rw [hdraft]
  rfl

/-- Claim C2: revert as forward commit — for a file whose main history is
commits c1 (content "A") then c2 (content "B"), revert of c1 onto main
appends a fresh commit c3 with c1's content verbatim and a message naming
c1's hash; the main history then reads [c3, c2, c1] newest first, and c1 and
c2 are untouched. -/
theorem revert_forward_commit (s : Store) (f : CodeFile) (c1 c2 : CodeCommit)
    (aid : Option Nat) (now : Nat) (rand : String)
    (hfind : findCommit s c1.id = some c1)
    (hfile : findFile s c1.file_id = some f)
    (hmain : commitsOn s c1.file_id "main" = [c1, c2])
    (hA : c1.content = "A") (hB : c2.content = "B")
    (ht : c1.created_at < c2.created_at) (hnow : c2.created_at < now) :
    ∃ c3 s',
      revert s c1.id (some "main") aid now rand = (.ok c3.hash, s') ∧
      c3.content = c1.content ∧
      c3.message = "Revert to commit " ++ c1.hash ∧
      c3.branch = "main" ∧
      s'.code_commits = s.code_commits ++ [c3] ∧
      getHistory s' c1.file_id (some "main") = [c3, c2, c1] := by
  have hfid : f.id = c1.file_id := by
    have hp := List.find?_some hfile
    exact eq_of_beq hp
  refine ⟨revertCommit s c1 f (some "main") aid now rand,
          updateFileTimestamp
            (midStore s (revertCommit s c1 f (some "main") aid now rand)) f.id now,
          revert_eq_of_some s c1.id (some "main") aid now rand c1 f hfind hfile,
          rfl, rfl, rfl, rfl, ?_⟩
  unfold getHistory
  rw [show orMain (some "main") = "main" from rfl, commitsOn_mid_update, hmain,
      show List.filter (fun d => d.file_id == c1.file_id && d.branch == "main")
          [revertCommit s c1 f (some "main") aid now rand]
        = [revertCommit s c1 f (some "main") aid now rand] by
        simp [revertCommit, defBranch, hfid],
      sortByTimeDesc_append_newest]
  · rw [show sortByTimeDesc [c1, c2] = [c2, c1] by
      show (if c2.created_at ≤ c1.created_at then c1 :: [c2] else c2 :: insertByTime c1 [])
        = [c2, c1]
      rw [if_neg (by omega)]
      rfl]
  · intro d hd
    show d.created_at < now
    rcases hd with _ | ⟨_, _ | ⟨_, h⟩⟩
    · omega
    · omega
    · cases h

/-- Claim C6, corrected: createFile at an existing (team, path) pair whose
registry row has a commit child (every reachable one has its initial commit)
IS rejected, by the store layer: REPLACE deletes the conflicting row, the
replacement row gets a fresh id, so the deleted row's commit children fail
the end-of-statement foreign-key re-check — the statement aborts with
FOREIGN KEY constraint failed, the handler answers HTTP 500, and neither the
registry nor the commits change. -/
theorem createFile_existing_path_fk (teams members : List Nat) (s : Store)
    (g : CodeFile) (c0 : CodeCommit) (tid aid : Nat) (fname fpath : String)
    (lang content : Option String) (now : Nat)
    (hg : g ∈ s.code_files) (hgteam : g.team_id = some tid) (hgpath : g.file_path = fpath)
    (htid : tid ≠ 0) (haid : aid ≠ 0) (hfn : fname ≠ "") (hfp : fpath ≠ "")
    (hc0 : c0 ∈ s.code_commits) (hc0g : c0.file_id = g.id)
    (hids : ∀ h ∈ s.code_files, h.id = g.id → h = g)
    (hfresh : ∀ h ∈ s.code_files, h.id < s.nextFileId) :
    createFileFK teams members s (some tid) (some fname) (some fpath) lang content
        (some aid) now
      = (.error (.storeError "FOREIGN KEY constraint failed"), s) := by
  have hrep : replaceDeletedOk
      (s.code_files.filter (fun f => f.team_id == some tid && f.file_path == fpath))
      (s.code_files.filter (fun f => !(f.team_id == some tid && f.file_path == fpath))
        ++ [newRegistryRow s tid fname fpath (lang.getD "java") aid now])
      s.code_commits = false := by
    unfold replaceDeletedOk
    rw [List.all_eq_false]
    refine ⟨c0, hc0, ?_⟩
    have hdel : (s.code_files.filter
        (fun f => f.team_id == some tid && f.file_path == fpath)).any
        (fun d => d.id == c0.file_id) = true := by
      rw [List.any_eq_true]
      refine ⟨g, List.mem_filter.mpr ⟨hg, by rw [hgteam, hgpath]; simp⟩, ?_⟩
      rw [hc0g]
      simp
    have hnoparent : (s.code_files.filter
          (fun f => !(f.team_id == some tid && f.file_path == fpath))
        ++ [newRegistryRow s tid fname fpath (lang.getD "java") aid now]).any
        (fun f => f.id == c0.file_id) = false := by
      rw [List.any_eq_false]
      intro x hx hbeq
      have hxid : x.id = c0.file_id := by simpa using hbeq
      rcases List.mem_append.mp hx with hk | hn
      · have hxg : x = g := hids x (List.mem_of_mem_filter hk) (by rw [hxid, hc0g])
        have hkeep := List.of_mem_filter hk
        rw [hxg, hgteam, hgpath] at hkeep
        simp at hkeep
      · have hxn : x = newRegistryRow s tid fname fpath (lang.getD "java") aid now := by
          simpa using hn
        have hlt := hfresh g hg
        rw [hxn, show (newRegistryRow s tid fname fpath (lang.getD "java") aid now).id
            = s.nextFileId from rfl, hc0g] at hxid
        omega
    simp only [hdel, hnoparent]
    decide
  show createFileFKbody teams members s tid fname fpath lang content aid now
      = (.error (.storeError "FOREIGN KEY constraint failed"), s)
  unfold createFileFKbody
  rw [if_neg (by simp [htid, haid, hfn, hfp]), if_neg (by rw [hrep]; simp)]

/-- A registry row used by the concrete witnesses. -/
def fileA : CodeFile :=
  { id := 1, team_id := some 1, file_name := "Robot.java",
    file_path := "src/Robot.java", language := "java", created_by := some 1,
    created_at := 0, updated_at := 0 }

/-- First main commit of the concrete revert scenario. -/
def commitA : CodeCommit :=
  { id := 1, team_id := some 1, file_id := 1, branch := "main", author_id := some 1,
    message := "m1", content := "A", hash := "h1", created_at := 1 }

/-- Second main commit of the concrete revert scenario. -/
def commitB : CodeCommit :=
  { id := 2, team_id := some 1, file_id := 1, branch := "main", author_id := some 1,
    message := "m2", content := "B", hash := "h2", created_at := 2 }

/-- One file with two main commits. -/
def storeAB : Store :=
  { code_files := [fileA], code_commits := [commitA, commitB],
    nextFileId := 2, nextCommitId := 3 }

/-- One file, no commits at all. -/
def storeOneFile : Store :=
  { code_files := [fileA], code_commits := [], nextFileId := 2, nextCommitId := 1 }

/-- The empty store. -/
def storeEmpty : Store :=
  { code_files := [], code_commits := [], nextFileId := 1, nextCommitId := 1 }

/-! ### Witnesses -/

/-- Witness for C1: a concrete successful publish on a one-file store. -/
theorem append_only_commits_witness :
    ∃ c, ((runOp storeOneFile (.publishOp 1 none (some 1) 5 "r")).2).code_commits
      = storeOneFile.code_commits ++ [c] :=
  append_only_commits storeOneFile (.publishOp 1 none (some 1) 5 "r") rfl

/-- Witness for C2: reverting the older of two main commits. -/
theorem revert_forward_commit_witness :
    ∃ c3 s',
      revert storeAB commitA.id (some "main") (some 1) 5 "r" = (.ok c3.hash, s') ∧
      c3.content = commitA.content ∧
      c3.message = "Revert to commit " ++ commitA.hash ∧
      c3.branch = "main" ∧
      s'.code_commits = storeAB.code_commits ++ [c3] ∧
      getHistory s' commitA.file_id (some "main") = [c3, commitB, commitA] :=
  revert_forward_commit storeAB fileA commitA commitB (some 1) 5 "r"
    rfl rfl rfl rfl rfl (by decide) (by decide)

/-- Witness for C3: draft then publish on a fresh file. -/
theorem round_trip_witness :
    ∃ bundle,
      getContentBundle
        (publish (saveDraft storeOneFile 1 "class X" (some 1) 3).2 1 (some "msg")
          (some 1) 4 "r").2 1
        = .ok bundle ∧ bundle.main_content = "class X" :=
  round_trip storeOneFile fileA 1 "class X" (some 1) (some 1) (some "msg") 3 4 "r"
    rfl (by intro c hc; cases hc) (by decide)

/-- Witness for C4: publishing a file that has no draft commit. -/
theorem publish_no_draft_witness :
    (publish storeOneFile 1 none (some 1) 5 "r").1 = .ok (toString 5 ++ "_" ++ "r") ∧
    ∃ c, ((publish storeOneFile 1 none (some 1) 5 "r").2).code_commits
        = storeOneFile.code_commits ++ [c] ∧
      c.branch = "main" ∧ c.content = "" ∧ c.hash = toString 5 ++ "_" ++ "r" :=
  publish_no_draft storeOneFile fileA 1 none (some 1) 5 "r" rfl rfl

/-- Witness for C5: download from a registered file, default branch. -/
theorem download_branch_spec_witness :
    (commitsOn storeOneFile 1 (defBranch none) = [] →
      download storeOneFile 1 none
        = .error (.notFound "No content found for this branch")) ∧
    ∀ c, latestOn storeOneFile 1 (defBranch none) = some c →
      download storeOneFile 1 none = .ok (c.content, fileA.file_name) :=
  download_branch_spec storeOneFile fileA 1 none rfl

/-- Counterexample to claim C6 as stated: storeAB holds fileA at team 1,
path src/Robot.java, with commit children; re-creating a file at that
(team, path) is rejected by the foreign-key re-check — a store error, not an
upsert, and both tables unchanged. Proved by direct evaluation. -/
theorem createFile_existing_path_counterexample :
    fileA ∈ storeAB.code_files ∧ fileA.team_id = some 1 ∧
    fileA.file_path = "src/Robot.java" ∧
    createFileFK [1] [1] storeAB (some 1) (some "Robot2.java") (some "src/Robot.java")
        none none (some 1) 7
      = (.error (.storeError "FOREIGN KEY constraint failed"), storeAB) := by
  refine ⟨?_, rfl, rfl, ?_⟩
  · show fileA ∈ [fileA]
    simp
  · rfl

/-- Witness for the corrected C6 at the same concrete input. -/
theorem createFile_existing_path_fk_witness :
    createFileFK [1] [1] storeAB (some 1) (some "Robot2.java") (some "src/Robot.java")
        none none (some 1) 7
      = (.error (.storeError "FOREIGN KEY constraint failed"), storeAB) :=
  createFile_existing_path_fk [1] [1] storeAB fileA commitA 1 1 "Robot2.java"
    "src/Robot.java" none none 7
    (by show fileA ∈ [fileA]; simp) rfl rfl (by decide) (by decide) (by decide) (by decide)
    (by show commitA ∈ [commitA, commitB]; simp) rfl
    (by intro x hx
        cases hx with
        | head => intro _; rfl
        | tail _ hx2 => cases hx2)
    (by intro x hx
        show x.id < 2
        cases hx with
        | head => decide
        | tail _ hx2 => cases hx2)

/-- Witness for C7: createFile with the team id missing. -/
theorem createFile_missing_field_witness :
    createFile storeEmpty none (some "a.java") (some "p") none none (some 1) 0
      = (.error (.clientError missingFieldsMsg), storeEmpty) :=
  createFile_missing_field storeEmpty none (some "a.java") (some "p") none none (some 1) 0
    (Or.inl rfl)

/-- Counterexample to claim C10 as stated: file id 9 is absent from
storeEmpty's registry, and saveDraft for it does not report success and
appends no commit — the insert fails the file_id foreign key. Proved by
direct evaluation. -/
theorem saveDraft_missing_file_counterexample :
    findFile storeEmpty 9 = none ∧
    isOk (saveDraftFK [1] [1] storeEmpty 9 "x" (some 1) 3).1 = false ∧
    ((saveDraftFK [1] [1] storeEmpty 9 "x" (some 1) 3).2).code_commits
      = storeEmpty.code_commits := by
  refine ⟨rfl, rfl, rfl⟩

/-- Witness for the corrected C10 at the same concrete input. -/
theorem saveDraft_missing_file_fk_witness :
    saveDraftFK [1] [1] storeEmpty 9 "x" (some 1) 3
      = (.error (.storeError "FOREIGN KEY constraint failed"), storeEmpty) :=
  saveDraft_missing_file_fk [1] [1] storeEmpty 9 "x" (some 1) 3 rfl

end FTCDashboard
